import Mathlib

/-!
Shallow embedding of the stock ledger and consistency engine of
`pms.py` (Product Management System), together with its product filter
model.  Rows of the relational store become Lean structures, the tables
become lists kept in insertion order (sqlite rowid order), and each
handler of the source becomes a state-passing function on the database
value.  Monetary amounts (held as Python floats in the source) are
modelled as exact rationals; timestamps produced by `datetime.now()` are
inputs of the functions that use them.
-/

namespace PMS

/-- One row of the `products` table. -/
structure Product where
  id : Nat
  name : String
  ptype : String
  buyPrice : ℚ
  sellPrice : ℚ
  lastUpdated : String
  stock : Int
  deriving Repr, DecidableEq

/-- One row of the append-only `stock_history` table (a ledger entry). -/
structure LedgerEntry where
  productId : Nat
  date : String
  quantityChange : Int
  reason : String
  deriving Repr, DecidableEq

/-- One row of the `daily_accessories_sales` table. -/
structure SaleRow where
  id : Nat
  date : String
  item : String
  quantity : Int
  salePrice : ℚ
  discount : ℚ
  total : ℚ
  productId : Nat
  deriving Repr, DecidableEq

/-- One row of the `invoices` table. -/
structure InvoiceRow where
  invoiceNumber : String
  date : String
  customerName : String
  total : ℚ
  vat : ℚ
  grandTotal : ℚ
  timestamp : String
  saleId : Option Nat
  deriving Repr, DecidableEq

/-- One row of the `invoice_items` table. -/
structure InvoiceItemRow where
  invoiceId : Nat
  productId : Nat
  quantity : Int
  unitPrice : ℚ
  discount : ℚ
  total : ℚ
  deriving Repr, DecidableEq

/-- The relational store: each table as a list in insertion order,
plus the autoincrement counters sqlite keeps for the sale and invoice
tables. -/
structure DB where
  products : List Product
  stockHistory : List LedgerEntry
  sales : List SaleRow
  invoices : List InvoiceRow
  invoiceItems : List InvoiceItemRow
  nextSaleId : Nat
  nextInvoiceId : Nat
  deriving Repr, DecidableEq

/-- `SELECT ... FROM products WHERE id=?` (first match, rowid order). -/
def findProduct (db : DB) (pid : Nat) : Option Product :=
  db.products.find? (fun p => p.id == pid)

/-- `SELECT ... FROM products WHERE name=?` (first match, rowid order). -/
def findProductByName (db : DB) (nm : String) : Option Product :=
  db.products.find? (fun p => p.name == nm)

/-- `SELECT ... FROM daily_accessories_sales WHERE id=?`. -/
def findSale (db : DB) (sid : Nat) : Option SaleRow :=
  db.sales.find? (fun s => s.id == sid)

/-- The entries of one product within a ledger list, in insertion
order. -/
def filterFor (h : List LedgerEntry) (pid : Nat) : List LedgerEntry :=
  h.filter (fun e => e.productId == pid)

/-- Sum of one product's deltas within a ledger list. -/
def sumFor (h : List LedgerEntry) (pid : Nat) : Int :=
  ((filterFor h pid).map LedgerEntry.quantityChange).sum

/-- The ledger entries of one product, in insertion order
(`SELECT ... FROM stock_history WHERE product_id=?`). -/
def historyFor (db : DB) (pid : Nat) : List LedgerEntry :=
  filterFor db.stockHistory pid

/-- `SELECT SUM(quantity_change) FROM stock_history WHERE product_id=?`
with `NULL` (empty sum) read back as 0 by the `or 0` in the source. -/
def ledgerSum (db : DB) (pid : Nat) : Int :=
  sumFor db.stockHistory pid

/-- `UPDATE products SET stock=?, last_updated=? WHERE id=?`. -/
def setStock (pid : Nat) (newStock : Int) (ts : String)
    (l : List Product) : List Product :=
  l.map (fun q =>
    if q.id == pid then { q with stock := newStock, lastUpdated := ts }
    else q)

/-- Outcome of `update_stock`: the Python function returns the new stock
on success and `None` both when the non-negativity constraint fails
(after showing the available quantity) and when the product row cannot
be read. -/
inductive StockResult where
  | ok (newStock : Int)
  | insufficient (available : Int)
  | productMissing
  deriving Repr, DecidableEq

/-- A `low_stock_signal.emit(name, new_stock)` notification. -/
structure LowStockNote where
  name : String
  newStock : Int
  deriving Repr, DecidableEq

/-- `update_stock(self, product_id, quantity_change, reason)`:
reads the current stock, rejects a change that would drive it below
zero (no write), otherwise updates the product row (`stock`,
`last_updated`) and appends one ledger entry, then emits a low-stock
notification when the new stock is at most 5. -/
def update_stock (db : DB) (productId : Nat) (quantityChange : Int)
    (reason ts : String) : StockResult × List LowStockNote × DB :=
  match findProduct db productId with
  | none => (StockResult.productMissing, [], db)
  | some p =>
    let newStock := p.stock + quantityChange
    if newStock < 0 then
      (StockResult.insufficient p.stock, [], db)
    else
      let db' : DB :=
        { db with
          products := setStock productId newStock ts db.products,
          stockHistory := db.stockHistory ++
            [⟨productId, ts, quantityChange, reason⟩] }
      let notes := if newStock ≤ 5 then [⟨p.name, newStock⟩] else []
      (StockResult.ok newStock, notes, db')

/-- One step of the `reconcile_stock` loop body for one product of the
initial `SELECT id, name, stock FROM products` snapshot: sum the
product's ledger deltas; when the sum disagrees with the stored stock,
append one corrective entry of `stock - sum` with reason
"Stock reconciliation". The product row itself is not modified. -/
def reconcileProduct (ts : String) (db : DB) (p : Product) : DB :=
  let totalChange := ledgerSum db p.id
  if totalChange ≠ p.stock then
    { db with stockHistory := db.stockHistory ++
        [⟨p.id, ts, p.stock - totalChange, "Stock reconciliation"⟩] }
  else db

/-- `reconcile_stock(self)`: iterate the loop body over the snapshot of
all product rows (the loop never touches the `products` table, so the
snapshot stays equal to the live table throughout). -/
def reconcile_stock (db : DB) (ts : String) : DB :=
  db.products.foldl (reconcileProduct ts) db

/-- The error taxonomy of the coordinators: every `raise ValueError`
and early-return path of the source maps to one constructor. -/
inductive OpError where
  | validation
  | productNotFound
  | insufficientStock (available : Int)
  | saleMismatch
  | saleNotFound
  | duplicateInvoiceNumber
  | stockFailure
  deriving Repr, DecidableEq

/-- Reason string written by `add_sale`. -/
def saleReason (qty : Int) (discount : ℚ) : String :=
  "Sale of " ++ toString qty ++ " units with " ++ toString discount ++
    "% discount"

/-- `add_sale(self)`, modelled after the text fields have been parsed
(`datetime.strptime`, `int(qty)`, `float(price)`, `float(discount)`;
a parse failure is one more `ValueError` path that writes nothing).
Validates the ranges, computes the total, resolves the product by name,
checks the stock, calls `update_stock` with `-qty` and aborts when it
returns `None`, then inserts the sale row. -/
def add_sale (db : DB) (date item : String) (qty : Int)
    (price discount : ℚ) (ts : String) :
    Except OpError (List LowStockNote) × DB :=
  if qty ≤ 0 ∨ price < 0 then (.error .validation, db)
  else if discount < 0 ∨ discount > 100 then (.error .validation, db)
  else
    let subtotal := (qty : ℚ) * price
    let discountAmount := subtotal * (discount / 100)
    let total := subtotal - discountAmount
    match findProductByName db item with
    | none => (.error .productNotFound, db)
    | some p =>
      if p.stock < qty then (.error (.insufficientStock p.stock), db)
      else
        match update_stock db p.id (-qty) (saleReason qty discount) ts with
        | (StockResult.ok _, notes, db1) =>
          let sale : SaleRow :=
            ⟨db1.nextSaleId, date, item, qty, price, discount, total, p.id⟩
          (.ok notes, { db1 with sales := db1.sales ++ [sale],
                                 nextSaleId := db1.nextSaleId + 1 })
        | (_, _, db1) => (.error .stockFailure, db1)

/-- Reason string written by `edit_sale`. -/
def editReason (oldQty newQty : Int) : String :=
  "Sale edit (old: " ++ toString oldQty ++ ", new: " ++ toString newQty ++ ")"

/-- `UPDATE daily_accessories_sales SET date=?, item=?, quantity=?,
sale_price=?, discount=?, total=?, product_id=? WHERE id=?`. -/
def editSaleRow (saleId : Nat) (date item : String) (qty : Int)
    (price discount total : ℚ) (pid : Nat) (l : List SaleRow) :
    List SaleRow :=
  l.map (fun t =>
    if t.id == saleId then
      { t with date := date, item := item, quantity := qty,
               salePrice := price, discount := discount,
               total := total, productId := pid }
    else t)

/-- `edit_sale(self)`, modelled post-parse like `add_sale`.  Validates
the ranges, reads the old quantity and owning product id of the sale
row, calls `update_stock` with the compensating delta
`old_quantity - new_quantity` when it is nonzero — the source discards
the return value of that call — and then unconditionally rewrites the
sale row with the new values and the original `product_id`. -/
def edit_sale (db : DB) (saleId : Nat) (date item : String) (qty : Int)
    (price discount : ℚ) (ts : String) :
    Except OpError (List LowStockNote) × DB :=
  if qty ≤ 0 ∨ price < 0 ∨ discount < 0 ∨ discount > 100 then
    (.error .validation, db)
  else
    let subtotal := (qty : ℚ) * price
    let discountAmount := subtotal * (discount / 100)
    let total := subtotal - discountAmount
    match findSale db saleId with
    | none => (.error .saleNotFound, db)
    | some s =>
      let stockChange := s.quantity - qty
      let (notes, db1) :=
        if stockChange ≠ 0 then
          let (_, n, d) :=
            update_stock db s.productId stockChange
              (editReason s.quantity qty) ts
          (n, d)
        else ([], db)
      (.ok notes,
       { db1 with
         sales := editSaleRow saleId date item qty price discount total
           s.productId db1.sales })

/-- Reason string written by `delete_sale`. -/
def deletionReason (qty : Int) : String :=
  "Sale deletion (" ++ toString qty ++ " sold)"

/-- `delete_sale(self)` after the caller's confirmation: restore the
sold quantity via `update_stock` (return value discarded) and delete
the sale row. -/
def delete_sale (db : DB) (saleId : Nat) (ts : String) :
    List LowStockNote × DB :=
  match findSale db saleId with
  | none => ([], db)
  | some s =>
    let (_, notes, db1) :=
      update_stock db s.productId s.quantity (deletionReason s.quantity) ts
    (notes, { db1 with sales := db1.sales.filter (fun t => !(t.id == saleId)) })

/-- The invoice source selector: "From Stock" or "From Sale" with the
selected sale id. -/
inductive InvoiceSource where
  | fromStock
  | fromSale (saleId : Nat)
  deriving Repr, DecidableEq

/-- `add_invoice(self)` from the `try` block on (the part after the
required-fields check and, for "From Sale", after the pre-fetch that
supplies `product_name`, `qty`, `discount` from the sale row itself;
here they are explicit parameters so the exact-match check is exercised
on arbitrary supplied values).  Validates ranges, resolves the product
by name, enforces the sale exact-match (from sale) or the stock check
(from stock), inserts the invoice and its single item, and calls
`update_stock` with `-qty` only for "From Stock". -/
def add_invoice (db : DB) (source : InvoiceSource)
    (date customerName productName : String) (qty : Int) (discount : ℚ)
    (ts : String) : Except OpError (List LowStockNote) × DB :=
  if qty ≤ 0 then (.error .validation, db)
  else if discount < 0 ∨ discount > 100 then (.error .validation, db)
  else match findProductByName db productName with
  | none => (.error .productNotFound, db)
  | some p =>
    let check : Except OpError Unit :=
      match source with
      | .fromSale sid =>
        match findSale db sid with
        | none => .error .saleMismatch
        | some s =>
          if s.productId ≠ p.id ∨ s.quantity ≠ qty ∨ s.discount ≠ discount
          then .error .saleMismatch else .ok ()
      | .fromStock =>
        if p.stock < qty then .error (.insufficientStock p.stock) else .ok ()
    match check with
    | .error e => (.error e, db)
    | .ok _ =>
      let unitPrice := p.sellPrice
      let subtotal := (qty : ℚ) * unitPrice
      let total := subtotal - subtotal * (discount / 100)
      let vat := total * (13 / 100)
      let grandTotal := total + vat
      let invoiceNumber := "INV-" ++ (ts.replace " " "-").replace ":" ""
      if db.invoices.any (fun i => i.invoiceNumber == invoiceNumber) then
        (.error .duplicateInvoiceNumber, db)
      else
        let saleIdOpt : Option Nat :=
          match source with
          | .fromSale sid => some sid
          | .fromStock => none
        let inv : InvoiceRow :=
          ⟨invoiceNumber, date, customerName, total, vat, grandTotal, ts,
            saleIdOpt⟩
        let item : InvoiceItemRow :=
          ⟨db.nextInvoiceId, p.id, qty, unitPrice, discount, total⟩
        let db1 := { db with invoices := db.invoices ++ [inv],
                             invoiceItems := db.invoiceItems ++ [item],
                             nextInvoiceId := db.nextInvoiceId + 1 }
        match source with
        | .fromStock =>
          let (_, notes, db2) :=
            update_stock db1 p.id (-qty) ("Invoice " ++ invoiceNumber) ts
          (.ok notes, db2)
        | .fromSale _ => (.ok [], db1)

/-! ### `AdvancedProductFilterModel` -/

/-- The `filters` dictionary of `AdvancedProductFilterModel`.  The
compiled pattern object is modelled as an abstract matcher
`String → Bool`; `none` is Python's `None` (unset, or a pattern whose
compilation failed). -/
structure FilterCriteria where
  name : String
  ptype : String
  minBuy : Option ℚ
  maxBuy : Option ℚ
  minSell : Option ℚ
  maxSell : Option ℚ
  updatedAfter : Option String
  nameRegex : Option (String → Bool)
  stockMin : Option Int
  stockMax : Option Int

/-- Python's `value in name` substring test. -/
def strContains (needle hay : String) : Bool :=
  decide (List.IsInfix needle.toList hay.toList)

/-- Python's `str.lower()`, as a character-wise map. -/
def strLower (s : String) : String :=
  ⟨s.data.map Char.toLower⟩

/-- Truthiness of the `updated_after` entry (`None` and `""` are falsy). -/
def updatedAfterActive : Option String → Bool
  | none => false
  | some s => s ≠ ""

/-- The `name` branch of `setFilterCriteria`: store the lowercased
query (empty query clears it) and recompile the pattern; `compile`
abstracts `re.compile(value, re.IGNORECASE)` and returns `none` where
the Python code catches `re.error` and stores `None`. -/
def setNameCriterion (compile : String → Option (String → Bool))
    (f : FilterCriteria) (value : String) : FilterCriteria :=
  { f with
    name := if value ≠ "" then strLower value else "",
    nameRegex := if value ≠ "" then compile value else none }

/-- The row data read from columns 1–6 of the source model. -/
structure RowData where
  name : String
  ptype : String
  buyPrice : ℚ
  sellPrice : ℚ
  lastUpdated : String
  stock : Int

/-- `filterAcceptsRow`: the row's name is lowercased and the nine
conditions (each vacuously `True` when its criterion is unset) are
conjoined with `all`. -/
def filterAcceptsRow (f : FilterCriteria) (r : RowData) : Bool :=
  let name := strLower r.name
  let conditions : List Bool := [
    if f.name ≠ "" then
      (strContains f.name name ||
        (match f.nameRegex with
         | some rx => rx name
         | none => false))
    else true,
    if f.ptype ≠ "" then r.ptype == f.ptype else true,
    match f.minBuy with
    | some b => decide (b ≤ r.buyPrice)
    | none => true,
    match f.maxBuy with
    | some b => decide (r.buyPrice ≤ b)
    | none => true,
    match f.minSell with
    | some b => decide (b ≤ r.sellPrice)
    | none => true,
    match f.maxSell with
    | some b => decide (r.sellPrice ≤ b)
    | none => true,
    if updatedAfterActive f.updatedAfter then
      decide (f.updatedAfter.getD "" ≤ r.lastUpdated)
    else true,
    match f.stockMin with
    | some b => decide (b ≤ r.stock)
    | none => true,
    match f.stockMax with
    | some b => decide (r.stock ≤ b)
    | none => true]
  conditions.all id

/-! ### Helper lemmas -/

theorem find?_map_updateIf {α : Type} (l : List α) (p : α → Bool) (g : α → α)
    (hg : ∀ x, p (g x) = p x) :
    (l.map (fun x => if p x then g x else x)).find? p = (l.find? p).map g := by
  induction l with
  | nil => rfl
  | cons a t ih =>
    simp only [List.map_cons]
    by_cases h : p a = true
    · rw [if_pos h, List.find?_cons_of_pos _ (by rw [hg]; exact h),
        List.find?_cons_of_pos _ h]
      rfl
    · rw [if_neg h, List.find?_cons_of_neg _ h, List.find?_cons_of_neg _ h, ih]

theorem find?_append_of_left_none {α : Type} (l₁ l₂ : List α) (p : α → Bool)
    (h : ∀ x ∈ l₁, p x = false) :
    (l₁ ++ l₂).find? p = l₂.find? p := by
  induction l₁ with
  | nil => rfl
  | cons a t ih =>
    rw [List.cons_append, List.find?_cons_of_neg _ (by simp [h a (by simp)])]
    exact ih (fun x hx => h x (by simp [hx]))

theorem findProduct_setStock (db : DB) (pid : Nat) (ns : Int) (ts : String) :
    (setStock pid ns ts db.products).find? (fun q => q.id == pid)
      = (db.products.find? (fun q => q.id == pid)).map
          (fun q => { q with stock := ns, lastUpdated := ts }) :=
  find?_map_updateIf _ _ _ (fun _ => rfl)

theorem find?_id_of_mem (l : List Product) (p : Product)
    (hnd : (l.map Product.id).Nodup) (hmem : p ∈ l) :
    l.find? (fun q => q.id == p.id) = some p := by
  induction l with
  | nil => cases hmem
  | cons a t ih =>
    rcases List.mem_cons.mp hmem with rfl | hmem'
    · exact List.find?_cons_of_pos _ (by simp)
    · have hne : a.id ≠ p.id := by
        intro he
        exact (List.nodup_cons.mp (List.map_cons Product.id a t ▸ hnd)).1
          (he ▸ List.mem_map_of_mem Product.id hmem')
      rw [List.find?_cons_of_neg _ (by simp [hne])]
      exact ih (List.nodup_cons.mp (List.map_cons Product.id a t ▸ hnd)).2 hmem'

theorem findProduct_of_mem (db : DB) (p : Product)
    (hnd : (db.products.map Product.id).Nodup) (hmem : p ∈ db.products) :
    findProduct db p.id = some p :=
  find?_id_of_mem db.products p hnd hmem

/-! ### C1: update_stock succeeds or fails atomically -/

/-- **C1.** For every product and delta: if `currentQuantity + delta < 0`
then `update_stock` fails with `InsufficientStock` carrying the
available quantity, returns no new quantity and performs no write (the
whole database, hence the stock field and the ledger entry count, is
unchanged); otherwise it returns `currentQuantity + delta`, sets the
product's stock to that value and appends exactly one ledger entry
whose delta equals the argument delta. -/
theorem update_stock_spec (db : DB) (pid : Nat) (delta : Int)
    (reason ts : String) (p : Product) (hp : findProduct db pid = some p) :
    (p.stock + delta < 0 →
      update_stock db pid delta reason ts
        = (StockResult.insufficient p.stock, [], db)) ∧
    (0 ≤ p.stock + delta →
      (update_stock db pid delta reason ts).1
          = StockResult.ok (p.stock + delta) ∧
      (findProduct (update_stock db pid delta reason ts).2.2 pid).map
          Product.stock = some (p.stock + delta) ∧
      (update_stock db pid delta reason ts).2.2.stockHistory
          = db.stockHistory ++ [⟨pid, ts, delta, reason⟩]) := by
  constructor
  · intro hneg
    unfold update_stock
    rw [hp]
    simp [hneg]
  · intro hpos
    unfold update_stock
    rw [hp]
    simp only [not_lt.mpr hpos, if_neg (not_lt.mpr hpos)]
    refine ⟨rfl, ?_, rfl⟩
    show ((setStock pid (p.stock + delta) ts db.products).find?
      (fun q => q.id == pid)).map Product.stock = some (p.stock + delta)
    rw [findProduct_setStock]
    unfold findProduct at hp
    rw [hp]
    rfl

/-- Witness for C1 at a concrete database. -/
theorem update_stock_spec_witness :
    findProduct ⟨[⟨1, "Widget", "Chargers", 10, 20, "t0", 10⟩],
        [⟨1, "t0", 10, "Initial stock"⟩], [], [], [], 1, 1⟩ 1
      = some ⟨1, "Widget", "Chargers", 10, 20, "t0", 10⟩ ∧
    ((10 : Int) + -4 ≥ 0) ∧
    (update_stock ⟨[⟨1, "Widget", "Chargers", 10, 20, "t0", 10⟩],
        [⟨1, "t0", 10, "Initial stock"⟩], [], [], [], 1, 1⟩ 1 (-4) "r" "t1").1
      = StockResult.ok 6 := by
  refine ⟨by decide, by decide, ?_⟩
  have h := (update_stock_spec ⟨[⟨1, "Widget", "Chargers", 10, 20, "t0", 10⟩],
    [⟨1, "t0", 10, "Initial stock"⟩], [], [], [], 1, 1⟩ 1 (-4) "r" "t1"
    ⟨1, "Widget", "Chargers", 10, 20, "t0", 10⟩ (by decide)).2 (by decide)
  exact h.1

/-! ### Ledger-sum and reconcile lemmas -/

theorem filterFor_append (h₁ h₂ : List LedgerEntry) (pid : Nat) :
    filterFor (h₁ ++ h₂) pid = filterFor h₁ pid ++ filterFor h₂ pid := by
  simp [filterFor]

theorem sumFor_append (h₁ h₂ : List LedgerEntry) (pid : Nat) :
    sumFor (h₁ ++ h₂) pid = sumFor h₁ pid + sumFor h₂ pid := by
  unfold sumFor
  rw [filterFor_append, List.map_append, List.sum_append]

theorem filterFor_single (e : LedgerEntry) (pid : Nat) :
    filterFor [e] pid = if e.productId = pid then [e] else [] := by
  unfold filterFor
  rw [List.filter_cons]
  by_cases h : e.productId = pid <;> simp [h]

theorem sumFor_single (e : LedgerEntry) (pid : Nat) :
    sumFor [e] pid = if e.productId = pid then e.quantityChange else 0 := by
  unfold sumFor
  rw [filterFor_single]
  by_cases h : e.productId = pid <;> simp [h]

theorem reconcileProduct_products (ts : String) (acc : DB) (q : Product) :
    (reconcileProduct ts acc q).products = acc.products := by
  unfold reconcileProduct
  by_cases h : ledgerSum acc q.id ≠ q.stock <;> simp [h]

theorem reconcileProduct_sales (ts : String) (acc : DB) (q : Product) :
    (reconcileProduct ts acc q).sales = acc.sales := by
  unfold reconcileProduct
  by_cases h : ledgerSum acc q.id ≠ q.stock <;> simp [h]

theorem historyFor_reconcileProduct (ts : String) (acc : DB) (q : Product)
    (pid : Nat) :
    historyFor (reconcileProduct ts acc q) pid
      = historyFor acc pid ++
          (if q.id = pid ∧ ledgerSum acc q.id ≠ q.stock then
            [⟨q.id, ts, q.stock - ledgerSum acc q.id, "Stock reconciliation"⟩]
           else []) := by
  unfold reconcileProduct historyFor
  by_cases hd : ledgerSum acc q.id ≠ q.stock
  · rw [if_pos hd]
    show filterFor (acc.stockHistory ++ _) pid = _
    rw [filterFor_append, filterFor_single]
    by_cases hq : q.id = pid
    · subst hq
      simp [hd]
    · simp [hq]
  · rw [if_neg hd, if_neg (by tauto)]
    simp

theorem ledgerSum_reconcileProduct (ts : String) (acc : DB) (q : Product)
    (pid : Nat) :
    ledgerSum (reconcileProduct ts acc q) pid
      = if q.id = pid then q.stock else ledgerSum acc pid := by
  show sumFor _ pid = _
  have h : (reconcileProduct ts acc q).stockHistory
      = acc.stockHistory ++
          (if ledgerSum acc q.id ≠ q.stock then
            [⟨q.id, ts, q.stock - ledgerSum acc q.id, "Stock reconciliation"⟩]
           else []) := by
    unfold reconcileProduct
    by_cases hd : ledgerSum acc q.id ≠ q.stock <;> simp [hd]
  rw [h, sumFor_append]
  by_cases hd : ledgerSum acc q.id ≠ q.stock
  · rw [if_pos hd, sumFor_single]
    by_cases hq : q.id = pid
    · subst hq
      rw [if_pos rfl, if_pos rfl]
      show ledgerSum acc q.id + (q.stock - ledgerSum acc q.id) = q.stock
      omega
    · rw [if_neg hq, if_neg hq]
      show ledgerSum acc pid + 0 = ledgerSum acc pid
      omega
  · rw [if_neg hd]
    have h0 : sumFor [] pid = 0 := rfl
    rw [h0]
    by_cases hq : q.id = pid
    · subst hq
      push_neg at hd
      rw [if_pos rfl]
      show ledgerSum acc q.id + 0 = q.stock
      omega
    · rw [if_neg hq]
      show ledgerSum acc pid + 0 = ledgerSum acc pid
      omega

theorem foldl_reconcile_products (ts : String) (l : List Product) (acc : DB) :
    (l.foldl (reconcileProduct ts) acc).products = acc.products := by
  induction l generalizing acc with
  | nil => rfl
  | cons q t ih => rw [List.foldl_cons, ih, reconcileProduct_products]

theorem foldl_reconcile_historyFor_of_not_mem (ts : String) (l : List Product)
    (acc : DB) (pid : Nat) (h : ∀ q ∈ l, q.id ≠ pid) :
    historyFor (l.foldl (reconcileProduct ts) acc) pid = historyFor acc pid := by
  induction l generalizing acc with
  | nil => rfl
  | cons q t ih =>
    rw [List.foldl_cons, ih _ (fun r hr => h r (by simp [hr])),
      historyFor_reconcileProduct, if_neg (by simp [h q (by simp)])]
    simp

theorem foldl_reconcile_historyFor (ts : String) (l : List Product) (acc : DB)
    (p : Product) (hmem : p ∈ l) (hnd : (l.map Product.id).Nodup) :
    historyFor (l.foldl (reconcileProduct ts) acc) p.id
      = historyFor acc p.id ++
          (if ledgerSum acc p.id ≠ p.stock then
            [⟨p.id, ts, p.stock - ledgerSum acc p.id, "Stock reconciliation"⟩]
           else []) := by
  induction l generalizing acc with
  | nil => cases hmem
  | cons q t ih =>
    have hnd' := List.nodup_cons.mp (List.map_cons Product.id q t ▸ hnd)
    rcases List.mem_cons.mp hmem with rfl | hmem'
    · rw [List.foldl_cons,
        foldl_reconcile_historyFor_of_not_mem ts t _ p.id
          (fun r hr hrp => hnd'.1 (hrp ▸ List.mem_map_of_mem Product.id hr)),
        historyFor_reconcileProduct]
      simp
    · have hqp : q.id ≠ p.id := by
        intro he
        exact hnd'.1 (he ▸ List.mem_map_of_mem Product.id hmem')
      rw [List.foldl_cons, ih _ hmem' hnd'.2,
        historyFor_reconcileProduct, if_neg (by tauto),
        ledgerSum_reconcileProduct, if_neg hqp]
      simp

theorem foldl_reconcile_ledgerSum (ts : String) (l : List Product) (acc : DB)
    (p : Product) (hmem : p ∈ l) (hnd : (l.map Product.id).Nodup) :
    ledgerSum (l.foldl (reconcileProduct ts) acc) p.id = p.stock := by
  have h := foldl_reconcile_historyFor ts l acc p hmem hnd
  show sumFor _ p.id = p.stock
  have : sumFor (l.foldl (reconcileProduct ts) acc).stockHistory p.id
      = ((historyFor (l.foldl (reconcileProduct ts) acc) p.id).map
          LedgerEntry.quantityChange).sum := rfl
  rw [this, h, List.map_append, List.sum_append]
  by_cases hd : ledgerSum acc p.id ≠ p.stock
  · rw [if_pos hd]
    show ledgerSum acc p.id + _ = p.stock
    simp
  · rw [if_neg hd]
    show ledgerSum acc p.id + _ = p.stock
    simp
    omega

theorem foldl_reconcile_id_of_no_drift (ts : String) (l : List Product)
    (acc : DB) (h : ∀ p ∈ l, ledgerSum acc p.id = p.stock) :
    l.foldl (reconcileProduct ts) acc = acc := by
  induction l with
  | nil => rfl
  | cons q t ih =>
    have hq : reconcileProduct ts acc q = acc := by
      unfold reconcileProduct
      rw [if_neg (by simp [h q (by simp)])]
    rw [List.foldl_cons, hq, ih (fun p hp => h p (by simp [hp]))]

/-! ### C2: stock equals the ledger sum -/

/-- **C2.** For every product: a successful `update_stock` preserves
`stock = sum of ledger deltas` (so the equality holds immediately after
every successful mutation starting from a consistent state), and a
`reconcile_stock` pass establishes it unconditionally for every
product. -/
theorem stock_matches_ledger (db : DB) (ts : String)
    (hnd : (db.products.map Product.id).Nodup) :
    (∀ pid delta reason p, findProduct db pid = some p →
      p.stock = ledgerSum db pid → 0 ≤ p.stock + delta →
      ∀ q, findProduct (update_stock db pid delta reason ts).2.2 pid = some q →
        q.stock = ledgerSum (update_stock db pid delta reason ts).2.2 pid) ∧
    (∀ p ∈ (reconcile_stock db ts).products,
      p.stock = ledgerSum (reconcile_stock db ts) p.id) := by
  constructor
  · intro pid delta reason p hp hsum hpos q hq
    have hspec := (update_stock_spec db pid delta reason ts p hp).2 hpos
    have hstock : q.stock = p.stock + delta := by
      rw [hq] at hspec
      have := hspec.2.1
      simpa using this
    have hledger : ledgerSum (update_stock db pid delta reason ts).2.2 pid
        = ledgerSum db pid + delta := by
      show sumFor _ pid = _
      rw [hspec.2.2, sumFor_append, sumFor_single, if_pos rfl]
      rfl
    rw [hstock, hledger, ← hsum]
  · intro p hmem
    rw [reconcile_stock] at hmem ⊢
    rw [foldl_reconcile_products] at hmem
    exact (foldl_reconcile_ledgerSum ts db.products db p hmem hnd).symm

/-- Witness for C2 at a concrete database. -/
theorem stock_matches_ledger_witness :
    (⟨1, "Widget", "Chargers", 10, 20, "t1", 6⟩ : Product).stock
        = ledgerSum (update_stock ⟨[⟨1, "Widget", "Chargers", 10, 20, "t0", 10⟩],
            [⟨1, "t0", 10, "Initial stock"⟩], [], [], [], 1, 1⟩ 1 (-4) "r" "t1").2.2 1 ∧
    (⟨1, "Widget", "Chargers", 10, 20, "t0", 50⟩ : Product).stock
        = ledgerSum (reconcile_stock ⟨[⟨1, "Widget", "Chargers", 10, 20, "t0", 50⟩],
            [⟨1, "t0", 10, "Initial stock"⟩], [], [], [], 1, 1⟩ "t2") 1 := by
  constructor
  · exact (stock_matches_ledger ⟨[⟨1, "Widget", "Chargers", 10, 20, "t0", 10⟩],
      [⟨1, "t0", 10, "Initial stock"⟩], [], [], [], 1, 1⟩ "t1" (by decide)).1
      1 (-4) "r" ⟨1, "Widget", "Chargers", 10, 20, "t0", 10⟩
      (by decide) (by decide) (by decide)
      ⟨1, "Widget", "Chargers", 10, 20, "t1", 6⟩ (by decide)
  · exact (stock_matches_ledger ⟨[⟨1, "Widget", "Chargers", 10, 20, "t0", 50⟩],
      [⟨1, "t0", 10, "Initial stock"⟩], [], [], [], 1, 1⟩ "t2" (by decide)).2
      ⟨1, "Widget", "Chargers", 10, 20, "t0", 50⟩ (by decide)

/-! ### C3: reconciliation appends one corrective entry, idempotently -/

/-- **C3.** One run of `reconcile_stock` appends, for every product
whose ledger-delta sum differs from its stored stock, exactly one
corrective entry with delta `stock - sum` and reason
"Stock reconciliation" (and nothing for products without discrepancy);
a second run immediately after is the identity. -/
theorem reconcile_spec (db : DB) (ts ts' : String)
    (hnd : (db.products.map Product.id).Nodup) :
    (∀ p ∈ db.products,
      historyFor (reconcile_stock db ts) p.id
        = historyFor db p.id ++
            (if ledgerSum db p.id ≠ p.stock then
              [⟨p.id, ts, p.stock - ledgerSum db p.id, "Stock reconciliation"⟩]
             else [])) ∧
    reconcile_stock (reconcile_stock db ts) ts' = reconcile_stock db ts := by
  constructor
  · intro p hmem
    exact foldl_reconcile_historyFor ts db.products db p hmem hnd
  · show (reconcile_stock db ts).products.foldl (reconcileProduct ts') _ = _
    rw [reconcile_stock, foldl_reconcile_products]
    exact foldl_reconcile_id_of_no_drift ts' db.products _
      (fun p hp => foldl_reconcile_ledgerSum ts db.products db p hp hnd)

/-- Witness for C3: one drifted product gets exactly one corrective
entry of delta 40, and a second run changes nothing. -/
theorem reconcile_spec_witness :
    historyFor (reconcile_stock ⟨[⟨1, "Widget", "Chargers", 10, 20, "t0", 50⟩],
        [⟨1, "t0", 10, "Initial stock"⟩], [], [], [], 1, 1⟩ "t2") 1
      = [⟨1, "t0", 10, "Initial stock"⟩, ⟨1, "t2", 40, "Stock reconciliation"⟩] ∧
    reconcile_stock (reconcile_stock ⟨[⟨1, "Widget", "Chargers", 10, 20, "t0", 50⟩],
        [⟨1, "t0", 10, "Initial stock"⟩], [], [], [], 1, 1⟩ "t2") "t3"
      = reconcile_stock ⟨[⟨1, "Widget", "Chargers", 10, 20, "t0", 50⟩],
        [⟨1, "t0", 10, "Initial stock"⟩], [], [], [], 1, 1⟩ "t2" := by
  have h := reconcile_spec ⟨[⟨1, "Widget", "Chargers", 10, 20, "t0", 50⟩],
    [⟨1, "t0", 10, "Initial stock"⟩], [], [], [], 1, 1⟩ "t2" "t3" (by decide)
  refine ⟨?_, h.2⟩
  have h1 := h.1 ⟨1, "Widget", "Chargers", 10, 20, "t0", 50⟩ (by decide)
  rw [h1]
  decide

/-! ### C4: low-stock notification -/

/-- **C4.** For every successful `update_stock`, a LowStock
notification carrying the product name and the new quantity is emitted
iff the new quantity is at most the threshold 5 (and nothing else is
ever emitted); a failed mutation emits no notification. -/
theorem low_stock_notification (db : DB) (pid : Nat) (delta : Int)
    (reason ts : String) (p : Product) (hp : findProduct db pid = some p) :
    (∀ n notes db',
      update_stock db pid delta reason ts = (StockResult.ok n, notes, db') →
      (n ≤ 5 → notes = [⟨p.name, n⟩]) ∧ (¬ n ≤ 5 → notes = [])) ∧
    (∀ res notes db',
      update_stock db pid delta reason ts = (res, notes, db') →
      (∀ n, res ≠ StockResult.ok n) → notes = []) := by
  have hev : update_stock db pid delta reason ts
      = if p.stock + delta < 0 then
          (StockResult.insufficient p.stock, [], db)
        else
          (StockResult.ok (p.stock + delta),
           if p.stock + delta ≤ 5 then [⟨p.name, p.stock + delta⟩] else [],
           { db with
             products := setStock pid (p.stock + delta) ts db.products,
             stockHistory := db.stockHistory ++ [⟨pid, ts, delta, reason⟩] }) := by
    unfold update_stock
    rw [hp]
  constructor
  · intro n notes db' h
    rw [hev] at h
    by_cases hneg : p.stock + delta < 0
    · rw [if_pos hneg] at h
      cases h
    · rw [if_neg hneg] at h
      have hn : n = p.stock + delta := by
        have := congrArg Prod.fst h
        simpa using this.symm
      have hnotes : notes
          = if p.stock + delta ≤ 5 then [⟨p.name, p.stock + delta⟩] else [] := by
        have := congrArg (fun x => x.2.1) h
        simpa using this.symm
      subst hn
      constructor
      · intro h5
        rw [hnotes, if_pos h5]
      · intro h5
        rw [hnotes, if_neg h5]
  · intro res notes db' h hne
    rw [hev] at h
    by_cases hneg : p.stock + delta < 0
    · rw [if_pos hneg] at h
      have := congrArg (fun x => x.2.1) h
      simpa using this.symm
    · rw [if_neg hneg] at h
      have hres : res = StockResult.ok (p.stock + delta) := by
        have := congrArg Prod.fst h
        simpa using this.symm
      exact absurd hres (hne _)

/-- Witness for C4: dropping to 4 units fires the notification with
the product name and new quantity. -/
theorem low_stock_notification_witness :
    ((4 : Int) ≤ 5 →
      (update_stock ⟨[⟨1, "Widget", "Chargers", 10, 20, "t0", 10⟩],
          [⟨1, "t0", 10, "Initial stock"⟩], [], [], [], 1, 1⟩ 1 (-6) "r" "t1").2.1
        = [⟨"Widget", 4⟩]) ∧
    (update_stock ⟨[⟨1, "Widget", "Chargers", 10, 20, "t0", 10⟩],
        [⟨1, "t0", 10, "Initial stock"⟩], [], [], [], 1, 1⟩ 1 (-6) "r" "t1").2.1
      = [⟨"Widget", 4⟩] := by
  have h := (low_stock_notification ⟨[⟨1, "Widget", "Chargers", 10, 20, "t0", 10⟩],
    [⟨1, "t0", 10, "Initial stock"⟩], [], [], [], 1, 1⟩ 1 (-6) "r" "t1"
    ⟨1, "Widget", "Chargers", 10, 20, "t0", 10⟩ (by decide)).1 4
    (update_stock ⟨[⟨1, "Widget", "Chargers", 10, 20, "t0", 10⟩],
      [⟨1, "t0", 10, "Initial stock"⟩], [], [], [], 1, 1⟩ 1 (-6) "r" "t1").2.1
    (update_stock ⟨[⟨1, "Widget", "Chargers", 10, 20, "t0", 10⟩],
      [⟨1, "t0", 10, "Initial stock"⟩], [], [], [], 1, 1⟩ 1 (-6) "r" "t1").2.2
    (by decide)
  exact ⟨h.1, h.1 (by decide)⟩

/-! ### C5: add_sale validates, records the discounted total, and
decrements stock -/

/-- **C5.** For every `Sale.create` request with `quantity > 0`,
`price ≥ 0`, `0 ≤ discount ≤ 100`, an existing named product and
`stock ≥ quantity`, `add_sale` succeeds, appends one sale whose total is
`quantity * price * (1 - discount/100)` and decrements that product's
stock by exactly `quantity`; when any of these validations fails the
operation returns an error and the database (hence the sales table) is
unchanged. -/
theorem add_sale_spec (db : DB) (date item : String) (qty : Int)
    (price discount : ℚ) (ts : String)
    (hnd : (db.products.map Product.id).Nodup) :
    (∀ p, findProductByName db item = some p →
      (0 < qty ∧ 0 ≤ price ∧ 0 ≤ discount ∧ discount ≤ 100 ∧ qty ≤ p.stock →
        (∃ notes, (add_sale db date item qty price discount ts).1
            = Except.ok notes) ∧
        (add_sale db date item qty price discount ts).2.sales
          = db.sales ++ [⟨db.nextSaleId, date, item, qty, price, discount,
              (qty : ℚ) * price * (1 - discount / 100), p.id⟩] ∧
        (findProduct (add_sale db date item qty price discount ts).2 p.id).map
            Product.stock = some (p.stock - qty)) ∧
      (¬(0 < qty ∧ 0 ≤ price ∧ 0 ≤ discount ∧ discount ≤ 100 ∧ qty ≤ p.stock) →
        (∃ e, (add_sale db date item qty price discount ts).1
            = Except.error e) ∧
        (add_sale db date item qty price discount ts).2 = db)) ∧
    (findProductByName db item = none →
      (∃ e, (add_sale db date item qty price discount ts).1 = Except.error e) ∧
      (add_sale db date item qty price discount ts).2 = db) := by
  constructor
  · intro p hp
    constructor
    · rintro ⟨hq, hpr, hd0, hd1, hs⟩
      have hps : findProduct db p.id = some p :=
        findProduct_of_mem db p hnd (List.mem_of_find?_eq_some hp)
      have hus : update_stock db p.id (-qty) (saleReason qty discount) ts
          = (StockResult.ok (p.stock + -qty),
             (if p.stock + -qty ≤ 5 then [⟨p.name, p.stock + -qty⟩] else []),
             { db with
               products := setStock p.id (p.stock + -qty) ts db.products,
               stockHistory := db.stockHistory ++
                 [⟨p.id, ts, -qty, saleReason qty discount⟩] }) := by
        unfold update_stock
        simp only [hps]
        rw [if_neg (show ¬(p.stock + -qty < 0) by omega)]
      have heval : add_sale db date item qty price discount ts
          = (Except.ok
               (if p.stock + -qty ≤ 5 then [⟨p.name, p.stock + -qty⟩] else []),
             { db with
               products := setStock p.id (p.stock + -qty) ts db.products,
               stockHistory := db.stockHistory ++
                 [⟨p.id, ts, -qty, saleReason qty discount⟩],
               sales := db.sales ++
                 [⟨db.nextSaleId, date, item, qty, price, discount,
                   (qty : ℚ) * price - (qty : ℚ) * price * (discount / 100),
                   p.id⟩],
               nextSaleId := db.nextSaleId + 1 }) := by
        unfold add_sale
        rw [if_neg (by simp only [not_or, not_le, not_lt]; exact ⟨hq, hpr⟩),
          if_neg (by simp only [not_or, not_lt]
                     exact ⟨hd0, hd1⟩)]
        simp only [hp, if_neg (not_lt.mpr hs), hus]
      rw [heval]
      refine ⟨⟨_, rfl⟩, ?_, ?_⟩
      · have htot : (qty : ℚ) * price - (qty : ℚ) * price * (discount / 100)
            = (qty : ℚ) * price * (1 - discount / 100) := by ring
        rw [htot]
      · show ((setStock p.id (p.stock + -qty) ts db.products).find?
          (fun q => q.id == p.id)).map Product.stock = some (p.stock - qty)
        rw [findProduct_setStock db p.id (p.stock + -qty) ts]
        show ((db.products.find? (fun q => q.id == p.id)).map _).map _ = _
        rw [show db.products.find? (fun q => q.id == p.id)
              = findProduct db p.id from rfl, hps]
        show some (p.stock + -qty) = some (p.stock - qty)
        rw [show p.stock + -qty = p.stock - qty by omega]
    · intro hinval
      unfold add_sale
      by_cases h1 : qty ≤ 0 ∨ price < 0
      · rw [if_pos h1]
        exact ⟨⟨_, rfl⟩, rfl⟩
      · rw [if_neg h1]
        by_cases h2 : discount < 0 ∨ discount > 100
        · rw [if_pos h2]
          exact ⟨⟨_, rfl⟩, rfl⟩
        · rw [if_neg h2]
          simp only [hp]
          by_cases h3 : p.stock < qty
          · rw [if_pos h3]
            exact ⟨⟨_, rfl⟩, rfl⟩
          · exfalso
            simp only [not_or, not_le, not_lt] at h1 h2 h3
            exact hinval ⟨h1.1, h1.2, h2.1, h2.2, h3⟩
  · intro hp
    unfold add_sale
    by_cases h1 : qty ≤ 0 ∨ price < 0
    · rw [if_pos h1]
      exact ⟨⟨_, rfl⟩, rfl⟩
    · rw [if_neg h1]
      by_cases h2 : discount < 0 ∨ discount > 100
      · rw [if_pos h2]
        exact ⟨⟨_, rfl⟩, rfl⟩
      · rw [if_neg h2]
        simp only [hp]
        exact ⟨⟨OpError.productNotFound, by trivial⟩, by trivial⟩

/-- Witness for C5: selling 3 units at 100 with 10% discount records
total 270 and drops the stock from 10 to 7. -/
theorem add_sale_spec_witness :
    (add_sale ⟨[⟨1, "Widget", "Chargers", 10, 20, "t0", 10⟩],
        [⟨1, "t0", 10, "Initial stock"⟩], [], [], [], 1, 1⟩
        "2025-01-01" "Widget" 3 100 10 "t1").2.sales
      = [] ++ [⟨1, "2025-01-01", "Widget", 3, 100, 10,
          (3 : ℚ) * 100 * (1 - 10 / 100), 1⟩] ∧
    (findProduct (add_sale ⟨[⟨1, "Widget", "Chargers", 10, 20, "t0", 10⟩],
        [⟨1, "t0", 10, "Initial stock"⟩], [], [], [], 1, 1⟩
        "2025-01-01" "Widget" 3 100 10 "t1").2 1).map Product.stock
      = some (10 - 3) := by
  have h := ((add_sale_spec ⟨[⟨1, "Widget", "Chargers", 10, 20, "t0", 10⟩],
    [⟨1, "t0", 10, "Initial stock"⟩], [], [], [], 1, 1⟩
    "2025-01-01" "Widget" 3 100 10 "t1" (by decide)).1
    ⟨1, "Widget", "Chargers", 10, 20, "t0", 10⟩ (by decide)).1
    ⟨by decide, by decide, by decide, by decide, by decide⟩
  exact ⟨h.2.1, h.2.2⟩

/-! ### C6: edit_sale commits the sale row even when the compensating
stock mutation is rejected -/

/-- **C6.** (exhibit of the source defect) On a product with stock 0
and a sale of 1 unit, editing the sale to 10 units makes the
compensating delta `1 - 10 = -9` fail with insufficient stock, yet
`edit_sale` ignores that failure and still rewrites the sale row: the
sale ends with quantity 10 while the product's stock (0) and its empty
ledger are untouched — a partial commit, contradicting the claim that
the sale record keeps its old values. -/
theorem edit_sale_commits_despite_rejected_delta :
    (update_stock ⟨[⟨1, "Widget", "Chargers", 10, 20, "t0", 0⟩],
        [], [⟨1, "2025-01-01", "Widget", 1, 100, 0, 100, 1⟩], [], [], 2, 1⟩
        1 (-9) (editReason 1 10) "t1").1
      = StockResult.insufficient 0 ∧
    (edit_sale ⟨[⟨1, "Widget", "Chargers", 10, 20, "t0", 0⟩],
        [], [⟨1, "2025-01-01", "Widget", 1, 100, 0, 100, 1⟩], [], [], 2, 1⟩
        1 "2025-01-02" "Widget" 10 100 0 "t1").1 = Except.ok [] ∧
    (findSale (edit_sale ⟨[⟨1, "Widget", "Chargers", 10, 20, "t0", 0⟩],
        [], [⟨1, "2025-01-01", "Widget", 1, 100, 0, 100, 1⟩], [], [], 2, 1⟩
        1 "2025-01-02" "Widget" 10 100 0 "t1").2 1).map SaleRow.quantity
      = some 10 ∧
    (findProduct (edit_sale ⟨[⟨1, "Widget", "Chargers", 10, 20, "t0", 0⟩],
        [], [⟨1, "2025-01-01", "Widget", 1, 100, 0, 100, 1⟩], [], [], 2, 1⟩
        1 "2025-01-02" "Widget" 10 100 0 "t1").2 1).map Product.stock
      = some 0 ∧
    (edit_sale ⟨[⟨1, "Widget", "Chargers", 10, 20, "t0", 0⟩],
        [], [⟨1, "2025-01-01", "Widget", 1, 100, 0, 100, 1⟩], [], [], 2, 1⟩
        1 "2025-01-02" "Widget" 10 100 0 "t1").2.stockHistory = [] := by
  refine ⟨by decide, by rfl, by decide, by decide, by decide⟩

/-! ### C7: create-then-delete round trip -/

theorem add_sale_eval (db : DB) (date item : String) (qty : Int)
    (price discount : ℚ) (ts : String) (p : Product)
    (hp : findProductByName db item = some p)
    (hps : findProduct db p.id = some p)
    (hq : 0 < qty) (hpr : 0 ≤ price) (hd0 : 0 ≤ discount)
    (hd1 : discount ≤ 100) (hs : qty ≤ p.stock) :
    add_sale db date item qty price discount ts
      = (Except.ok
           (if p.stock + -qty ≤ 5 then [⟨p.name, p.stock + -qty⟩] else []),
         { db with
           products := setStock p.id (p.stock + -qty) ts db.products,
           stockHistory := db.stockHistory ++
             [⟨p.id, ts, -qty, saleReason qty discount⟩],
           sales := db.sales ++
             [⟨db.nextSaleId, date, item, qty, price, discount,
               (qty : ℚ) * price - (qty : ℚ) * price * (discount / 100),
               p.id⟩],
           nextSaleId := db.nextSaleId + 1 }) := by
  have hus : update_stock db p.id (-qty) (saleReason qty discount) ts
      = (StockResult.ok (p.stock + -qty),
         (if p.stock + -qty ≤ 5 then [⟨p.name, p.stock + -qty⟩] else []),
         { db with
           products := setStock p.id (p.stock + -qty) ts db.products,
           stockHistory := db.stockHistory ++
             [⟨p.id, ts, -qty, saleReason qty discount⟩] }) := by
    unfold update_stock
    simp only [hps]
    rw [if_neg (show ¬(p.stock + -qty < 0) by omega)]
  unfold add_sale
  rw [if_neg (by simp only [not_or, not_le, not_lt]; exact ⟨hq, hpr⟩),
    if_neg (by simp only [not_or, not_lt]
               exact ⟨hd0, hd1⟩)]
  simp only [hp, if_neg (not_lt.mpr hs), hus]

/-- **C7.** For every product and valid sale, `add_sale` immediately
followed by `delete_sale` of the created sale restores the product's
stock to its pre-create value, leaves the net ledger-delta sum of the
product unchanged (the two compensating entries cancel), and restores
the sales table. -/
theorem sale_roundtrip (db : DB) (date item : String) (qty : Int)
    (price discount : ℚ) (ts ts' : String) (p : Product)
    (hnd : (db.products.map Product.id).Nodup)
    (hfresh : ∀ s ∈ db.sales, s.id ≠ db.nextSaleId)
    (hp : findProductByName db item = some p)
    (hq : 0 < qty) (hpr : 0 ≤ price) (hd0 : 0 ≤ discount)
    (hd1 : discount ≤ 100) (hs : qty ≤ p.stock) :
    (findProduct (delete_sale (add_sale db date item qty price discount ts).2
        db.nextSaleId ts').2 p.id).map Product.stock = some p.stock ∧
    ledgerSum (delete_sale (add_sale db date item qty price discount ts).2
        db.nextSaleId ts').2 p.id = ledgerSum db p.id ∧
    (delete_sale (add_sale db date item qty price discount ts).2
        db.nextSaleId ts').2.sales = db.sales := by
  have hps : findProduct db p.id = some p :=
    findProduct_of_mem db p hnd (List.mem_of_find?_eq_some hp)
  have h1 := add_sale_eval db date item qty price discount ts p hp hps
    hq hpr hd0 hd1 hs
  rw [h1]
  set sale : SaleRow := ⟨db.nextSaleId, date, item, qty, price, discount,
    (qty : ℚ) * price - (qty : ℚ) * price * (discount / 100), p.id⟩ with hsale
  set db1 : DB :=
    { db with
      products := setStock p.id (p.stock + -qty) ts db.products,
      stockHistory := db.stockHistory ++
        [⟨p.id, ts, -qty, saleReason qty discount⟩],
      sales := db.sales ++ [sale],
      nextSaleId := db.nextSaleId + 1 } with hdb1
  have hfind : findSale db1 db.nextSaleId = some sale := by
    show (db.sales ++ [sale]).find? (fun s => s.id == db.nextSaleId) = some sale
    rw [find?_append_of_left_none _ _ _
      (fun s hsm => by simp [hfresh s hsm])]
    exact List.find?_cons_of_pos _ (by simp [hsale])
  have hp1 : findProduct db1 p.id
      = some { p with stock := p.stock + -qty, lastUpdated := ts } := by
    show (setStock p.id (p.stock + -qty) ts db.products).find?
      (fun q => q.id == p.id) = _
    rw [findProduct_setStock db p.id (p.stock + -qty) ts]
    rw [show db.products.find? (fun q => q.id == p.id)
          = findProduct db p.id from rfl, hps]
    rfl
  have hus : update_stock db1 p.id sale.quantity
      (deletionReason sale.quantity) ts'
      = (StockResult.ok (p.stock + -qty + qty),
         (if p.stock + -qty + qty ≤ 5 then
            [⟨p.name, p.stock + -qty + qty⟩] else []),
         { db1 with
           products := setStock p.id (p.stock + -qty + qty) ts' db1.products,
           stockHistory := db1.stockHistory ++
             [⟨p.id, ts', qty, deletionReason qty⟩] }) := by
    unfold update_stock
    simp only [hp1]
    rw [if_neg (show ¬(p.stock + -qty + qty < 0) by omega)]
  have hdel : delete_sale db1 db.nextSaleId ts'
      = ((if p.stock + -qty + qty ≤ 5 then
            [⟨p.name, p.stock + -qty + qty⟩] else []),
         { db1 with
           products := setStock p.id (p.stock + -qty + qty) ts' db1.products,
           stockHistory := db1.stockHistory ++
             [⟨p.id, ts', qty, deletionReason qty⟩],
           sales := (db.sales ++ [sale]).filter
             (fun t => !(t.id == db.nextSaleId)) }) := by
    unfold delete_sale
    simp only [hfind, hus]
  rw [hdel]
  refine ⟨?_, ?_, ?_⟩
  · show ((setStock p.id (p.stock + -qty + qty) ts' db1.products).find?
      (fun q => q.id == p.id)).map Product.stock = some p.stock
    rw [findProduct_setStock db1 p.id (p.stock + -qty + qty) ts']
    rw [show db1.products.find? (fun q => q.id == p.id)
          = findProduct db1 p.id from rfl, hp1]
    show some (p.stock + -qty + qty) = some p.stock
    rw [show p.stock + -qty + qty = p.stock by omega]
  · show sumFor ((db.stockHistory ++ [⟨p.id, ts, -qty, saleReason qty discount⟩])
      ++ [⟨p.id, ts', qty, deletionReason qty⟩]) p.id = ledgerSum db p.id
    rw [sumFor_append, sumFor_append, sumFor_single, sumFor_single]
    rw [if_pos rfl, if_pos rfl]
    show ledgerSum db p.id + -qty + qty = ledgerSum db p.id
    omega
  · show (db.sales ++ [sale]).filter (fun t => !(t.id == db.nextSaleId))
      = db.sales
    rw [List.filter_append]
    have h2 : [sale].filter (fun t => !(t.id == db.nextSaleId)) = [] := by
      simp [hsale]
    have h3 : db.sales.filter (fun t => !(t.id == db.nextSaleId)) = db.sales :=
      List.filter_eq_self.mpr (fun s hsm => by simp [hfresh s hsm])
    rw [h2, h3, List.append_nil]

/-- Witness for C7: the concrete round trip on a 10-unit product. -/
theorem sale_roundtrip_witness :
    (findProduct (delete_sale
        (add_sale ⟨[⟨1, "Widget", "Chargers", 10, 20, "t0", 10⟩],
            [⟨1, "t0", 10, "Initial stock"⟩], [], [], [], 1, 1⟩
            "2025-01-01" "Widget" 3 100 10 "t1").2 1 "t2").2 1).map
        Product.stock = some 10 ∧
    ledgerSum (delete_sale
        (add_sale ⟨[⟨1, "Widget", "Chargers", 10, 20, "t0", 10⟩],
            [⟨1, "t0", 10, "Initial stock"⟩], [], [], [], 1, 1⟩
            "2025-01-01" "Widget" 3 100 10 "t1").2 1 "t2").2 1
      = ledgerSum ⟨[⟨1, "Widget", "Chargers", 10, 20, "t0", 10⟩],
          [⟨1, "t0", 10, "Initial stock"⟩], [], [], [], 1, 1⟩ 1 := by
  have h := sale_roundtrip ⟨[⟨1, "Widget", "Chargers", 10, 20, "t0", 10⟩],
    [⟨1, "t0", 10, "Initial stock"⟩], [], [], [], 1, 1⟩
    "2025-01-01" "Widget" 3 100 10 "t1" "t2"
    ⟨1, "Widget", "Chargers", 10, 20, "t0", 10⟩
    (by decide) (by intro s hsm; cases hsm) (by decide)
    (by decide) (by decide) (by decide) (by decide) (by decide)
  exact ⟨h.1, h.2.1⟩

/-! ### C8: from-sale invoices must match the sale and never touch
stock -/

/-- **C8.** For every from-sale `add_invoice`: if the referenced sale's
product, quantity or discount differs from the supplied values, the
operation fails with the sale-mismatch error and writes nothing; if
they match exactly, the invoice and its single item are appended while
the product rows and the ledger stay untouched.  Only from-stock
invoices call the stock mutation, with delta `-quantity`. -/
theorem add_invoice_from_sale_spec (db : DB) (sid : Nat)
    (date cust productName : String) (qty : Int) (discount : ℚ)
    (ts : String) (p : Product) (s : SaleRow)
    (hq : 0 < qty) (hd0 : 0 ≤ discount) (hd1 : discount ≤ 100)
    (hp : findProductByName db productName = some p)
    (hs : findSale db sid = some s)
    (hu : ∀ i ∈ db.invoices,
      i.invoiceNumber ≠ "INV-" ++ (ts.replace " " "-").replace ":" "") :
    ((s.productId ≠ p.id ∨ s.quantity ≠ qty ∨ s.discount ≠ discount) →
      add_invoice db (InvoiceSource.fromSale sid) date cust productName
          qty discount ts
        = (Except.error OpError.saleMismatch, db)) ∧
    (s.productId = p.id → s.quantity = qty → s.discount = discount →
      (add_invoice db (InvoiceSource.fromSale sid) date cust productName
          qty discount ts).1 = Except.ok [] ∧
      (∃ inv itm,
        (add_invoice db (InvoiceSource.fromSale sid) date cust productName
            qty discount ts).2.invoices = db.invoices ++ [inv] ∧
        (add_invoice db (InvoiceSource.fromSale sid) date cust productName
            qty discount ts).2.invoiceItems = db.invoiceItems ++ [itm]) ∧
      (add_invoice db (InvoiceSource.fromSale sid) date cust productName
          qty discount ts).2.products = db.products ∧
      (add_invoice db (InvoiceSource.fromSale sid) date cust productName
          qty discount ts).2.stockHistory = db.stockHistory) ∧
    ((db.products.map Product.id).Nodup → qty ≤ p.stock →
      (add_invoice db InvoiceSource.fromStock date cust productName
          qty discount ts).2.stockHistory
        = db.stockHistory ++
            [⟨p.id, ts, -qty,
              "Invoice " ++ ("INV-" ++ (ts.replace " " "-").replace ":" "")⟩]) := by
  have hany : db.invoices.any (fun i =>
      i.invoiceNumber == "INV-" ++ (ts.replace " " "-").replace ":" "")
      = false := by
    rw [List.any_eq_false]
    intro i him
    simpa using hu i him
  refine ⟨?_, ?_, ?_⟩
  · intro hmis
    unfold add_invoice
    rw [if_neg (not_le.mpr hq),
      if_neg (by simp only [not_or, not_lt]; exact ⟨hd0, hd1⟩)]
    simp only [hp, hs]
    rw [if_pos hmis]
  · intro h1 h2 h3
    have heval : add_invoice db (InvoiceSource.fromSale sid) date cust
        productName qty discount ts
        = (Except.ok [],
           { db with
             invoices := db.invoices ++
               [⟨"INV-" ++ (ts.replace " " "-").replace ":" "", date, cust,
                 (qty : ℚ) * p.sellPrice -
                   (qty : ℚ) * p.sellPrice * (discount / 100),
                 ((qty : ℚ) * p.sellPrice -
                   (qty : ℚ) * p.sellPrice * (discount / 100)) * (13 / 100),
                 ((qty : ℚ) * p.sellPrice -
                   (qty : ℚ) * p.sellPrice * (discount / 100)) +
                 ((qty : ℚ) * p.sellPrice -
                   (qty : ℚ) * p.sellPrice * (discount / 100)) * (13 / 100),
                 ts, some sid⟩],
             invoiceItems := db.invoiceItems ++
               [⟨db.nextInvoiceId, p.id, qty, p.sellPrice, discount,
                 (qty : ℚ) * p.sellPrice -
                   (qty : ℚ) * p.sellPrice * (discount / 100)⟩],
             nextInvoiceId := db.nextInvoiceId + 1 }) := by
      unfold add_invoice
      rw [if_neg (not_le.mpr hq),
        if_neg (by simp only [not_or, not_lt]; exact ⟨hd0, hd1⟩)]
      simp only [hp, hs]
      rw [if_neg (by simp [h1, h2, h3]), hany]
      simp only [Bool.false_eq_true, if_false]
    rw [heval]
    exact ⟨rfl, ⟨_, _, rfl, rfl⟩, rfl, rfl⟩
  · intro hnd hstock
    have hps : findProduct db p.id = some p :=
      findProduct_of_mem db p hnd (List.mem_of_find?_eq_some hp)
    unfold add_invoice
    rw [if_neg (not_le.mpr hq),
      if_neg (by simp only [not_or, not_lt]; exact ⟨hd0, hd1⟩)]
    simp only [hp]
    rw [if_neg (not_lt.mpr hstock), hany]
    simp only [Bool.false_eq_true, if_false]
    have hps1 : findProduct
        { db with
          invoices := db.invoices ++
            [⟨"INV-" ++ (ts.replace " " "-").replace ":" "", date, cust,
              (qty : ℚ) * p.sellPrice -
                (qty : ℚ) * p.sellPrice * (discount / 100),
              ((qty : ℚ) * p.sellPrice -
                (qty : ℚ) * p.sellPrice * (discount / 100)) * (13 / 100),
              ((qty : ℚ) * p.sellPrice -
                (qty : ℚ) * p.sellPrice * (discount / 100)) +
              ((qty : ℚ) * p.sellPrice -
                (qty : ℚ) * p.sellPrice * (discount / 100)) * (13 / 100),
              ts, none⟩],
          invoiceItems := db.invoiceItems ++
            [⟨db.nextInvoiceId, p.id, qty, p.sellPrice, discount,
              (qty : ℚ) * p.sellPrice -
                (qty : ℚ) * p.sellPrice * (discount / 100)⟩],
          nextInvoiceId := db.nextInvoiceId + 1 } p.id = some p := hps
    simp only [update_stock, hps1]
    rw [if_neg (show ¬(p.stock + -qty < 0) by omega)]

/-- Witness for C8: an invoice from a matching sale succeeds and leaves
the ledger untouched. -/
theorem add_invoice_from_sale_spec_witness :
    (add_invoice ⟨[⟨1, "Widget", "Chargers", 10, 20, "t0", 7⟩],
        [⟨1, "t0", 7, "Initial stock"⟩],
        [⟨1, "2025-01-01", "Widget", 3, 100, 10, 270, 1⟩], [], [], 2, 1⟩
        (InvoiceSource.fromSale 1) "2025-01-01" "Cust" "Widget" 3 10
        "2025-01-01 10:00:00").1 = Except.ok [] ∧
    (add_invoice ⟨[⟨1, "Widget", "Chargers", 10, 20, "t0", 7⟩],
        [⟨1, "t0", 7, "Initial stock"⟩],
        [⟨1, "2025-01-01", "Widget", 3, 100, 10, 270, 1⟩], [], [], 2, 1⟩
        (InvoiceSource.fromSale 1) "2025-01-01" "Cust" "Widget" 3 10
        "2025-01-01 10:00:00").2.stockHistory
      = [⟨1, "t0", 7, "Initial stock"⟩] := by
  have h := (add_invoice_from_sale_spec
    ⟨[⟨1, "Widget", "Chargers", 10, 20, "t0", 7⟩],
      [⟨1, "t0", 7, "Initial stock"⟩],
      [⟨1, "2025-01-01", "Widget", 3, 100, 10, 270, 1⟩], [], [], 2, 1⟩
    1 "2025-01-01" "Cust" "Widget" 3 10 "2025-01-01 10:00:00"
    ⟨1, "Widget", "Chargers", 10, 20, "t0", 7⟩
    ⟨1, "2025-01-01", "Widget", 3, 100, 10, 270, 1⟩
    (by decide) (by decide) (by decide) (by decide) (by decide)
    (by intro i him; cases him)).2.1 rfl rfl rfl
  exact ⟨h.1, by rw [h.2.2.2]⟩

/-! ### C9: filter acceptance is an AND of per-criterion tests -/

theorem ite_prop_true_iff {c : Prop} [Decidable c] {x : Bool} :
    ((if c then x else true) = true) ↔ (c → x = true) := by
  by_cases h : c <;> simp [h]

theorem strLower_eq_empty_iff (s : String) : strLower s = "" ↔ s = "" := by
  cases s with
  | mk d =>
    constructor
    · intro h
      have hd : d.map Char.toLower = [] := congrArg String.data h
      have h2 : d = [] := List.map_eq_nil_iff.mp hd
      rw [h2]
    · intro h
      rw [h]
      rfl

theorem name_cond_iff (f : FilterCriteria) (nm : String) :
    ((strContains f.name nm ||
      (match f.nameRegex with | some rx => rx nm | none => false)) = true)
      ↔ (strContains f.name nm = true ∨
          ∃ rx, f.nameRegex = some rx ∧ rx nm = true) := by
  cases h : f.nameRegex <;> simp [h]

theorem updated_cond_iff (f : FilterCriteria) (v : String) :
    ((if updatedAfterActive f.updatedAfter then
        decide (f.updatedAfter.getD "" ≤ v)
      else true) = true)
      ↔ ∀ su, f.updatedAfter = some su → su ≠ "" → su ≤ v := by
  cases h : f.updatedAfter with
  | none => simp [updatedAfterActive]
  | some su =>
    by_cases he : su = ""
    · subst he
      simp [updatedAfterActive]
    · simp [updatedAfterActive, he]

/-- **C9.** `filterAcceptsRow` accepts a row iff every set criterion
holds (AND semantics, an unset criterion being vacuously true), all
range bounds inclusive; the name criterion passes when the lowercased
name contains the query as a substring OR the compiled pattern matches;
and when the query does not compile (`setFilterCriteria` stored `None`
for the pattern), acceptance degrades to the substring test conjoined
with the remaining criteria. -/
theorem filterAcceptsRow_spec (f : FilterCriteria) (r : RowData) :
    (filterAcceptsRow f r = true ↔
      ((f.name ≠ "" →
         (strContains f.name (strLower r.name) = true ∨
          ∃ rx, f.nameRegex = some rx ∧ rx (strLower r.name) = true)) ∧
       (f.ptype ≠ "" → r.ptype = f.ptype) ∧
       (∀ b, f.minBuy = some b → b ≤ r.buyPrice) ∧
       (∀ b, f.maxBuy = some b → r.buyPrice ≤ b) ∧
       (∀ b, f.minSell = some b → b ≤ r.sellPrice) ∧
       (∀ b, f.maxSell = some b → r.sellPrice ≤ b) ∧
       (∀ su, f.updatedAfter = some su → su ≠ "" → su ≤ r.lastUpdated) ∧
       (∀ b, f.stockMin = some b → b ≤ r.stock) ∧
       (∀ b, f.stockMax = some b → r.stock ≤ b))) ∧
    (∀ compile q, q ≠ "" → compile q = none →
      filterAcceptsRow (setNameCriterion compile f q) r
        = (strContains (strLower q) (strLower r.name) &&
           filterAcceptsRow { f with name := "", nameRegex := none } r)) := by
  constructor
  · unfold filterAcceptsRow
    simp only [List.all_cons, List.all_nil, id_eq, Bool.and_eq_true, and_true]
    refine and_congr ?_ (and_congr ?_ (and_congr ?_ (and_congr ?_
      (and_congr ?_ (and_congr ?_ (and_congr ?_ (and_congr ?_ ?_)))))))
    · exact ite_prop_true_iff.trans
        (imp_congr_right (fun _ => name_cond_iff f (strLower r.name)))
    · exact ite_prop_true_iff.trans
        (imp_congr_right (fun _ => by simp))
    · cases f.minBuy <;> simp
    · cases f.maxBuy <;> simp
    · cases f.minSell <;> simp
    · cases f.maxSell <;> simp
    · exact updated_cond_iff f r.lastUpdated
    · cases f.stockMin <;> simp
    · cases f.stockMax <;> simp
  · intro compile q hne hc
    have hq : strLower q ≠ "" := fun he => hne (strLower_eq_empty_iff q |>.mp he)
    have hset : setNameCriterion compile f q
        = { f with name := strLower q, nameRegex := none } := by
      unfold setNameCriterion
      rw [if_pos hne, if_pos hne, hc]
    rw [hset]
    unfold filterAcceptsRow
    simp only [List.all_cons, List.all_nil, id_eq]
    rw [if_pos hq, if_neg (show ¬("" : String) ≠ "" by simp)]
    cases hsc : strContains (strLower q) (strLower r.name) <;> simp

/-- Witness for C9 at a concrete filter, row, and failing compile. -/
theorem filterAcceptsRow_spec_witness :
    filterAcceptsRow
        (setNameCriterion (fun _ => none)
          ⟨"", "", none, none, none, none, none, none, some 1, none⟩ "idg")
        ⟨"Widget", "Chargers", 10, 20, "t0", 5⟩
      = (strContains (strLower "idg") (strLower "Widget") &&
         filterAcceptsRow ⟨"", "", none, none, none, none, none, none,
           some 1, none⟩ ⟨"Widget", "Chargers", 10, 20, "t0", 5⟩) := by
  exact (filterAcceptsRow_spec
    ⟨"", "", none, none, none, none, none, none, some 1, none⟩
    ⟨"Widget", "Chargers", 10, 20, "t0", 5⟩).2
    (fun _ => none) "idg" (by decide) rfl

/-! ### C10: edit_sale keeps the original owning product -/

theorem update_stock_frame (db : DB) (pid : Nat) (delta : Int)
    (reason ts : String) :
    (update_stock db pid delta reason ts).2.2.sales = db.sales ∧
    ((update_stock db pid delta reason ts).2.2.stockHistory = db.stockHistory ∨
     (update_stock db pid delta reason ts).2.2.stockHistory
       = db.stockHistory ++ [⟨pid, ts, delta, reason⟩]) := by
  unfold update_stock
  cases h : findProduct db pid with
  | none => simp
  | some p =>
    by_cases hneg : p.stock + delta < 0 <;> simp [hneg]

/-- **C10.** Every `edit_sale` leaves the sale's owning product id
unchanged: the rewritten sale row carries the original `product_id`
even when the supplied item name differs from the original, and any
compensating ledger entry the edit appends targets that original
product with delta `old_quantity - new_quantity`. -/
theorem edit_sale_keeps_product (db : DB) (saleId : Nat)
    (date item : String) (qty : Int) (price discount : ℚ) (ts : String)
    (s : SaleRow) (hsale : findSale db saleId = some s)
    (hq : 0 < qty) (hpr : 0 ≤ price) (hd0 : 0 ≤ discount)
    (hd1 : discount ≤ 100) :
    (∃ notes, (edit_sale db saleId date item qty price discount ts).1
        = Except.ok notes) ∧
    findSale (edit_sale db saleId date item qty price discount ts).2 saleId
      = some ⟨s.id, date, item, qty, price, discount,
          (qty : ℚ) * price - (qty : ℚ) * price * (discount / 100),
          s.productId⟩ ∧
    (∀ e ∈ (edit_sale db saleId date item qty price discount ts).2.stockHistory.drop
        db.stockHistory.length,
      e.productId = s.productId ∧ e.quantityChange = s.quantity - qty) := by
  have hval : ¬(qty ≤ 0 ∨ price < 0 ∨ discount < 0 ∨ discount > 100) := by
    simp only [not_or, not_le, not_lt]
    exact ⟨hq, hpr, hd0, hd1⟩
  have hsid : s.id = saleId := by
    have := List.find?_some hsale
    simpa using this
  have hfind : ∀ l : List SaleRow, l.find? (fun t => t.id == saleId)
        = some s →
      (editSaleRow saleId date item qty price discount
        ((qty : ℚ) * price - (qty : ℚ) * price * (discount / 100))
        s.productId l).find? (fun t => t.id == saleId)
      = some ⟨s.id, date, item, qty, price, discount,
          (qty : ℚ) * price - (qty : ℚ) * price * (discount / 100),
          s.productId⟩ := by
    intro l hl
    unfold editSaleRow
    rw [find?_map_updateIf l (fun t => t.id == saleId)
        (fun t =>
          { t with
            date := date
            item := item
            quantity := qty
            salePrice := price
            discount := discount
            total := (qty : ℚ) * price - (qty : ℚ) * price * (discount / 100)
            productId := s.productId })
        (fun _ => rfl), hl]
    rfl
  unfold edit_sale
  rw [if_neg hval]
  simp only [hsale]
  by_cases hch : s.quantity - qty ≠ 0
  · rw [if_pos hch]
    rcases hu : update_stock db s.productId (s.quantity - qty)
      (editReason s.quantity qty) ts with ⟨res, n1, d1⟩
    have hf := update_stock_frame db s.productId (s.quantity - qty)
      (editReason s.quantity qty) ts
    rw [hu] at hf
    dsimp only
    refine ⟨⟨n1, rfl⟩, ?_, ?_⟩
    · show (editSaleRow saleId date item qty price discount _ s.productId
        d1.sales).find? (fun t => t.id == saleId) = _
      rw [hf.1]
      exact hfind db.sales hsale
    · intro e he
      rcases hf.2 with hh | hh
      · rw [hh, List.drop_length] at he
        cases he
      · rw [hh, List.drop_left] at he
        rcases List.mem_singleton.mp he with rfl
        exact ⟨rfl, rfl⟩
  · rw [if_neg hch]
    dsimp only
    refine ⟨⟨[], rfl⟩, ?_, ?_⟩
    · exact hfind db.sales hsale
    · intro e he
      rw [List.drop_length] at he
      cases he

/-- Witness for C10: editing a sale whose item name is changed to a
different product's name still writes the row with the original
product id 1. -/
theorem edit_sale_keeps_product_witness :
    findSale (edit_sale ⟨[⟨1, "Widget", "Chargers", 10, 20, "t0", 10⟩,
          ⟨2, "Cable", "Cables", 1, 2, "t0", 10⟩],
        [], [⟨1, "2025-01-01", "Widget", 3, 100, 0, 300, 1⟩], [], [], 2, 1⟩
        1 "2025-01-02" "Cable" 2 50 0 "t1").2 1
      = some ⟨1, "2025-01-02", "Cable", 2, 50, 0,
          (2 : ℚ) * 50 - (2 : ℚ) * 50 * (0 / 100), 1⟩ := by
  exact (edit_sale_keeps_product ⟨[⟨1, "Widget", "Chargers", 10, 20, "t0", 10⟩,
      ⟨2, "Cable", "Cables", 1, 2, "t0", 10⟩],
      [], [⟨1, "2025-01-01", "Widget", 3, 100, 0, 300, 1⟩], [], [], 2, 1⟩
    1 "2025-01-02" "Cable" 2 50 0 "t1"
    ⟨1, "2025-01-01", "Widget", 3, 100, 0, 300, 1⟩
    (by decide) (by decide) (by decide) (by decide) (by decide)).2.1

end PMS
